import Mathlib

/-!
Task registry of `server.go`.

A shallow embedding of the handler logic of `src/server.go` (the task registry
`NewTask`, the attach operation `NewFile`, `StopServer` and the shutdown
goroutine of `main`) together with the properties of its specification.

Go strings are Lean strings, Go slices are lists, Go `int` is a 64-bit signed
integer represented by an `Int` with explicit wrap-around.
-/

namespace Server

/-! ## Constants and data model (server.go, lines 18-48) -/

def MaxTasks : Nat := 3

def MaxObjects : Nat := 3

structure TObject where
  Url : String
  Path : String
  Name : String
  Status : String
deriving DecidableEq, Repr

structure TTask where
  Objects : List TObject
  ZipName : String
  Number : String
deriving DecidableEq, Repr

/-- The handler together with the part of the world its methods act on.
`Wg` is the counter of the wait group `*h.Wg` (a natural number: the wait
group panics rather than count below zero), `Disk` the list of the paths of
the files present in the storage directory `FilesDir`. The mutex `M` has no
state in a sequential run and is left out. -/
structure ServerHandler where
  Wg : Nat
  FilesDir : String
  Tasks : List TTask
  NextTask : Int
  NextObject : Int
  Disk : List String
deriving DecidableEq, Repr

structure FileType where
  ContentType : String
  Extension : String
deriving DecidableEq, Repr

/-- Outcome of a handler method: `ok` is a `nil` error, `err msg` an error
value with the given text, `fault` a run-time panic of the Go program. -/
inductive Result where
  | ok
  | err (msg : String)
  | fault
deriving DecidableEq, Repr

/-! ## Machine integers and `fmt.Sprint` -/

/-- Wrap-around of a 64-bit signed Go `int`. -/
def wrapInt (x : Int) : Int := (x + 2 ^ 63) % 2 ^ 64 - 2 ^ 63

/-- The function `fmt.Sprint` on a Go `int`: its decimal rendering. -/
def Sprint (n : Int) : String :=
  match n with
  | Int.ofNat m => Nat.repr m
  | Int.negSucc m => "-" ++ Nat.repr (m + 1)

/-! ## The handler as set up by `main` (server.go, lines 259-268, 277) -/

/-- The handler when the server starts to listen: no tasks, both counters at
one, one unit of work registered by `wg.Add(1)`, an empty storage directory. -/
def initHandler (filesDir : String) : ServerHandler :=
  { Wg := 1, FilesDir := filesDir, Tasks := [], NextTask := 1, NextObject := 1, Disk := [] }

/-! ## `NewTask` (server.go, lines 138-153) -/

def errTooManyTasks : String :=
  "server: Exceeding the maximum number of tasks (server is busy)"

def NewTask (h : ServerHandler) : Result × ServerHandler :=
  if h.Tasks.length == MaxTasks then
    (Result.err errTooManyTasks, h)
  else
    let task : TTask := { Objects := [], ZipName := "", Number := Sprint h.NextTask }
    (Result.ok, { h with Tasks := h.Tasks ++ [task], NextTask := wrapInt (h.NextTask + 1) })

/-- The handler after `n` consecutive calls of `NewTask`. -/
def afterNewTasks (h : ServerHandler) : Nat → ServerHandler
  | 0 => h
  | n + 1 => (NewTask (afterNewTasks h n)).2

/-- The three tasks a run of `NewTask` calls creates, in the order of their
creation. -/
def firstTasks : List TTask :=
  [ { Objects := [], ZipName := "", Number := "1" },
    { Objects := [], ZipName := "", Number := "2" },
    { Objects := [], ZipName := "", Number := "3" } ]

/-- What sequential runs keep true of the handler: the ids of the tasks are
the first `n` of "1", "2", "3", the counter is `n + 1`, and no task has more
than three objects. -/
def Inv (h : ServerHandler) : Prop :=
  ∃ n : Nat, n ≤ 3 ∧ h.Tasks.map TTask.Number = (firstTasks.take n).map TTask.Number ∧
    h.NextTask = (n : Int) + 1 ∧ ∀ t ∈ h.Tasks, t.Objects.length ≤ MaxObjects

/-! ## Library functions used by `NewFile`

The Go standard library is not part of the repository; the pure functions are
rendered after their library source, the outcomes of the network and of the
file system are supplied by an environment `Env`. -/

/-- The function `strings.Trim(s, cutset)`: `s` without the leading and trailing characters
that occur in `cutset`. -/
def Trim (s cutset : String) : String :=
  String.mk (((s.data.dropWhile (fun c => cutset.data.contains c)).reverse.dropWhile
    (fun c => cutset.data.contains c)).reverse)

/-- The function `path.Base`: the last element of a slash-separated path. -/
def pathBase (p : String) : String :=
  if p == "" then "."
  else
    let stripped := p.data.reverse.dropWhile (fun c => c == '/')
    let last := (stripped.takeWhile (fun c => c != '/')).reverse
    if last.isEmpty then "/" else String.mk last

/-- The function `prefixAndSuffix` of package `os`: a pattern with a path separator is
refused, otherwise the pattern is split at its last `*`. -/
def prefixAndSuffix (pattern : String) : Option (String × String) :=
  if pattern.data.any (fun c => c == '/') then none
  else
    let r := pattern.data.reverse
    if r.any (fun c => c == '*') then
      some (String.mk ((r.dropWhile (fun c => c != '*')).tail.reverse),
            String.mk ((r.takeWhile (fun c => c != '*')).reverse))
    else some (pattern, "")

/-- The function `joinPath` of package `os`. -/
def joinPath (dir name : String) : String :=
  if dir.data.getLast? == some '/' then dir ++ name else dir ++ "/" ++ name

/-- What the outside world answers during one call of `NewFile`. -/
structure Env where
  /-- The call `http.Head(u)`: an error, or the value of the `Content-Type` header. -/
  Head : String → Except String String
  /-- The successive values drawn by `nextRandom` inside `os.CreateTemp`. -/
  rand : Nat → Nat
  /-- Whether creating a file in the directory fails for a reason other than
  the name being taken (directory removed, no permission, ...). -/
  createFails : Bool
  /-- Value of `os.TempDir()`, used by `os.CreateTemp` for an empty `dir`. -/
  TempDir : String
  /-- The call `os.OpenFile(path, os.O_WRONLY, 0666)`: `some e` is the error `e`. -/
  OpenFile : String → Option String
  /-- The call `http.Get(u)`: `some e` is the error `e`. -/
  Get : String → Option String
  /-- The call `io.Copy(f, res.Body)`: `some e` is the error `e`. -/
  Copy : Option String

/-- The function `nextRandom` of package `os`: the decimal rendering of a 32-bit value. -/
def nextRandom (env : Env) (try_ : Nat) : String := Nat.repr (env.rand try_ % 2 ^ 32)

/-- The retry loop of `os.CreateTemp`: a name that exists is tried again, at
most 10000 times in all. -/
def createLoop (env : Env) (disk : List String) (pfx sfx : String) :
    Nat → Nat → Option String
  | 0, _ => none
  | fuel + 1, try_ =>
    let name := pfx ++ nextRandom env try_ ++ sfx
    if env.createFails then none
    else if name ∈ disk then createLoop env disk pfx sfx fuel (try_ + 1)
    else some name

/-- The function `os.CreateTemp(dir, pattern)`: the path of the file created, `none` for
an error. -/
def CreateTemp (env : Env) (disk : List String) (dir pattern : String) : Option String :=
  let dir := if dir == "" then env.TempDir else dir
  match prefixAndSuffix pattern with
  | none => none
  | some (pfx, sfx) => createLoop env disk (joinPath dir pfx) sfx 10000 0

/-- The call `WaitGroup.Add(1)`. -/
def WgAdd (h : ServerHandler) : ServerHandler := { h with Wg := h.Wg + 1 }

/-- The call `WaitGroup.Done()`: `none` is the panic on a negative counter. -/
def WgDone (h : ServerHandler) : Option ServerHandler :=
  if h.Wg = 0 then none else some { h with Wg := h.Wg - 1 }

/-! ## `StopServer` (server.go, lines 133-135) -/

def StopServer (h : ServerHandler) : Result × ServerHandler :=
  match WgDone h with
  | none => (Result.fault, h)
  | some h' => (Result.ok, h')

/-! ## `NewFile` (server.go, lines 155-239) -/

/-- What `NewFile` does, in the order it does it: the calls to the network, to
the file system and to the wait group, and the append to the task. -/
inductive Event where
  | Head (u : String)
  | WgAdd
  | CreateTemp (dir pattern : String)
  | OpenFile (path : String)
  | Get (u : String)
  | Copy (path : String)
  | Append (path : String)
  | WgDone
deriving DecidableEq, Repr

structure Outcome where
  res : Result
  st : ServerHandler
  trace : List Event
deriving DecidableEq, Repr

def errTooManyObjects : String := "server: Exceeding the maximum number of objects"

def errFileInfo : String := "server: Error receiving file information"

def errFileType : String := "server: Object has not good file type"

def errFileCreate : String := "server: File creation error"

/-- The lookup loop of lines 157-162: the pointer `task` is the index of the
last task whose `Number` is `tasknumber`, `none` is the nil pointer. -/
def findTaskLoop (tasknumber : String) : List TTask → Nat → Option Nat → Option Nat
  | [], _, task => task
  | t :: ts, i, task =>
    findTaskLoop tasknumber ts (i + 1) (if t.Number == tasknumber then some i else task)

def findTask (tasks : List TTask) (tasknumber : String) : Option Nat :=
  findTaskLoop tasknumber tasks 0 none

def TypeList : List FileType :=
  [ { ContentType := "application/pdf", Extension := ".pdf" },
    { ContentType := "image/jpeg", Extension := ".jpg" } ]

/-- The loop of lines 184-190: the extension of the first entry of the list
whose content type is `conType`, the empty string when there is none. -/
def chooseExtLoop (conType : String) : List FileType → String
  | [] => ""
  | ft :: rest => if conType == ft.ContentType then ft.Extension else chooseExtLoop conType rest

def chooseExt (conType : String) : String := chooseExtLoop conType TypeList

/-- The validation step (lines 177-194): the extension chosen for a content
type, `none` when line 192 rejects it. -/
def validate (conType : String) : Option String :=
  let ext := chooseExt conType
  if ext == "" then none else some ext

/-- Lines 199-238, between `h.Wg.Add(1)` and the deferred `h.Wg.Done()`. -/
def fetchInto (env : Env) (h : ServerHandler) (i : Nat) (task : TTask)
    (u tasknumber ext : String) : Outcome :=
  let pattern := "file-task-" ++ tasknumber ++ "-*" ++ ext
  match CreateTemp env h.Disk h.FilesDir pattern with
  | none => ⟨Result.err errFileCreate, h, [Event.CreateTemp h.FilesDir pattern]⟩
  | some file =>
    let h1 := { h with Disk := h.Disk ++ [file] }
    let object : TObject := { Url := u, Path := file, Name := pathBase file, Status := "" }
    match env.OpenFile object.Path with
    | some e =>
      ⟨Result.err e, h1, [Event.CreateTemp h.FilesDir pattern, Event.OpenFile object.Path]⟩
    | none =>
      match env.Get object.Url with
      | some e =>
        ⟨Result.err e, h1, [Event.CreateTemp h.FilesDir pattern, Event.OpenFile object.Path,
          Event.Get object.Url]⟩
      | none =>
        match env.Copy with
        | some e =>
          ⟨Result.err e, h1, [Event.CreateTemp h.FilesDir pattern, Event.OpenFile object.Path,
            Event.Get object.Url, Event.Copy object.Path]⟩
        | none =>
          ⟨Result.ok,
           { h1 with Tasks := h1.Tasks.set i { task with Objects := task.Objects ++ [object] } },
           [Event.CreateTemp h.FilesDir pattern, Event.OpenFile object.Path,
            Event.Get object.Url, Event.Copy object.Path, Event.Append object.Path]⟩

def NewFile (env : Env) (h : ServerHandler) (objUrl tasknumber : String) : Outcome :=
  match findTask h.Tasks tasknumber with
  | none => ⟨Result.fault, h, []⟩
  | some i =>
    match h.Tasks[i]? with
    | none => ⟨Result.fault, h, []⟩
    | some task =>
      if task.Objects.length == MaxObjects then ⟨Result.err errTooManyObjects, h, []⟩
      else
        let u := Trim objUrl " "
        match env.Head u with
        | Except.error _ => ⟨Result.err errFileInfo, h, [Event.Head u]⟩
        | Except.ok conType =>
          let ext := chooseExt conType
          if ext == "" then ⟨Result.err errFileType, h, [Event.Head u]⟩
          else
            let out := fetchInto env (WgAdd h) i task u tasknumber ext
            match WgDone out.st with
            | none => ⟨Result.fault, out.st, Event.Head u :: Event.WgAdd :: out.trace⟩
            | some h' => ⟨out.res, h', Event.Head u :: Event.WgAdd :: (out.trace ++ [Event.WgDone])⟩

/-! ## Sequential runs of the handler -/

inductive Call where
  | NewTask
  | NewFile (env : Env) (objUrl tasknumber : String)
  | StopServer

def exec (c : Call) (h : ServerHandler) : Result × ServerHandler :=
  match c with
  | Call.NewTask => NewTask h
  | Call.NewFile env objUrl tasknumber =>
    let out := NewFile env h objUrl tasknumber
    (out.res, out.st)
  | Call.StopServer => StopServer h

/-- The handlers reached from the one set up by `main` by calls that do not
fault, one after the other. -/
inductive Reachable : ServerHandler → Prop where
  | init (filesDir : String) : Reachable (initHandler filesDir)
  | step {h : ServerHandler} (c : Call) :
      Reachable h → (exec c h).1 ≠ Result.fault → Reachable (exec c h).2

/-- The run of a list of calls, `none` when one of them faults. -/
def run : List Call → ServerHandler → Option ServerHandler
  | [], h => some h
  | c :: rest, h => if (exec c h).1 = Result.fault then none else run rest (exec c h).2

/-- Whether the call is a `NewFile` on the task id `tn` that returns success
on the handler `h`. -/
def attaches (tn : String) (c : Call) (h : ServerHandler) : Bool :=
  match c with
  | Call.NewFile env objUrl tasknumber =>
    tasknumber == tn && (NewFile env h objUrl tasknumber).res == Result.ok
  | _ => false

/-- The number of successful calls of `NewFile` on the task id `tn` in the
run of a list of calls. -/
def attached (tn : String) : List Call → ServerHandler → Nat
  | [], _ => 0
  | c :: rest, h => (if attaches tn c h then 1 else 0) + attached tn rest (exec c h).2

/-- The number of objects of the task a call on the id `tn` resolves to, zero
when there is none. -/
def objectCount (h : ServerHandler) (tn : String) : Nat :=
  match findTask h.Tasks tn with
  | none => 0
  | some i =>
    match h.Tasks[i]? with
    | none => 0
    | some t => t.Objects.length

/-- A sample environment: every URL answers with a PDF and nothing fails. -/
def pdfEnv : Env :=
  { Head := fun _ => Except.ok "application/pdf", rand := fun n => 7 + n, createFails := false,
    TempDir := "/tmp", OpenFile := fun _ => none, Get := fun _ => none, Copy := none }

/-- A sample run: a task is created, a PDF is attached to it, the server is
asked to stop. -/
def sampleRun : ServerHandler :=
  (exec Call.StopServer
    (exec (Call.NewFile pdfEnv " http://x/doc.pdf" "1")
      (exec Call.NewTask (initHandler "/tmp/d")).2).2).2

/-- A sample list of calls: a task is created and three PDFs are attached to
it. -/
def fullRun : List Call :=
  [Call.NewTask, Call.NewFile pdfEnv "http://x/a.pdf" "1",
   Call.NewFile pdfEnv "http://x/b.pdf" "1", Call.NewFile pdfEnv "http://x/c.pdf" "1"]

/-- The handler at the end of `fullRun`. -/
def fullHandler : ServerHandler :=
  { Wg := 1, FilesDir := "/tmp/d",
    Tasks :=
      [{ Objects :=
           [{ Url := "http://x/a.pdf", Path := "/tmp/d/file-task-1-7.pdf",
              Name := "file-task-1-7.pdf", Status := "" },
            { Url := "http://x/b.pdf", Path := "/tmp/d/file-task-1-8.pdf",
              Name := "file-task-1-8.pdf", Status := "" },
            { Url := "http://x/c.pdf", Path := "/tmp/d/file-task-1-9.pdf",
              Name := "file-task-1-9.pdf", Status := "" }],
         ZipName := "", Number := "1" }],
    NextTask := 2, NextObject := 1,
    Disk := ["/tmp/d/file-task-1-7.pdf", "/tmp/d/file-task-1-8.pdf",
      "/tmp/d/file-task-1-9.pdf"] }

/-- A sample environment: every URL answers with an HTML page. -/
def htmlEnv : Env :=
  { Head := fun _ => Except.ok "text/html", rand := fun n => 7 + n, createFails := false,
    TempDir := "/tmp", OpenFile := fun _ => none, Get := fun _ => none, Copy := none }

/-! ## The shutdown coordinator (server.go, lines 133-135, 196-197, 277-282)

The wait group seen on its own: `count` is its counter, `inflight` the number
of calls of `NewFile` between their `h.Wg.Add(1)` and their deferred
`h.Wg.Done()`, `cleaned` tells whether the goroutine of `main` has removed the
storage directory. -/

structure Coord where
  count : Nat
  inflight : Nat
  cleaned : Bool
deriving DecidableEq, Repr

inductive CoordStep where
  | startFetch
  | endFetch
  | stopServer
  | cleanup
deriving DecidableEq, Repr

/-- The coordinator after `wg.Add(1)` of `main`. -/
def initCoord : Coord := { count := 1, inflight := 0, cleaned := false }

/-- One step of the coordinator, `none` when the step cannot be taken:
`Wg.Done` on a zero counter panics, only a fetch that has started can end, and
`wg.Wait()` lets the goroutine of `main` go on only at a zero counter. -/
def coordStep (st : CoordStep) (c : Coord) : Option Coord :=
  match st with
  | CoordStep.startFetch => some { c with count := c.count + 1, inflight := c.inflight + 1 }
  | CoordStep.endFetch =>
    if c.inflight = 0 ∨ c.count = 0 then none
    else some { c with count := c.count - 1, inflight := c.inflight - 1 }
  | CoordStep.stopServer =>
    if c.count = 0 then none else some { c with count := c.count - 1 }
  | CoordStep.cleanup =>
    if c.count = 0 ∧ c.cleaned = false then some { c with cleaned := true } else none

def coordRun : List CoordStep → Coord → Option Coord
  | [], c => some c
  | st :: rest, c =>
    match coordStep st c with
    | none => none
    | some c' => coordRun rest c'

/-- The number of `stopServer` steps of a run. -/
def stops (steps : List CoordStep) : Nat := steps.count CoordStep.stopServer

/-! ## Interleaved calls of `NewTask` (server.go, lines 138-153)

Each call runs three steps: the test of line 140, the reading of the counter
of line 145, and the section of lines 146-149 that holds the mutex. Steps of
different calls alternate in any order. -/

inductive Pc where
  | atCheck
  | atNumber
  | atLock (number : String)
  | returned (r : Result)
deriving DecidableEq, Repr

structure Shared where
  Tasks : List TTask
  NextTask : Int
  calls : List Pc
deriving DecidableEq, Repr

/-- The registry set up by `main` with `n` calls of `NewTask` about to run. -/
def initShared (n : Nat) : Shared :=
  { Tasks := [], NextTask := 1, calls := List.replicate n Pc.atCheck }

/-- The next step of call `k`, `none` when the call has returned. -/
def sharedStep (k : Nat) (s : Shared) : Option Shared :=
  match s.calls[k]? with
  | some Pc.atCheck =>
    if s.Tasks.length == MaxTasks then
      some { s with calls := s.calls.set k (Pc.returned (Result.err errTooManyTasks)) }
    else some { s with calls := s.calls.set k Pc.atNumber }
  | some Pc.atNumber => some { s with calls := s.calls.set k (Pc.atLock (Sprint s.NextTask)) }
  | some (Pc.atLock number) =>
    some { Tasks := s.Tasks ++ [{ Objects := [], ZipName := "", Number := number }],
           NextTask := wrapInt (s.NextTask + 1),
           calls := s.calls.set k (Pc.returned Result.ok) }
  | _ => none

def sharedRun : List Nat → Shared → Option Shared
  | [], s => some s
  | k :: rest, s =>
    match sharedStep k s with
    | none => none
    | some s' => sharedRun rest s'

/-! ## Properties of `NewTask` -/

theorem afterNewTasks_full (filesDir : String) (k : Nat) :
    afterNewTasks (initHandler filesDir) (3 + k) = afterNewTasks (initHandler filesDir) 3 := by
  induction k with
  | zero => rfl
  | succ k ih =>
    show (NewTask (afterNewTasks (initHandler filesDir) (3 + k))).2 = _
    rw [ih]
    rfl

theorem afterNewTasks_init (filesDir : String) (n : Nat) :
    afterNewTasks (initHandler filesDir) n =
      { Wg := 1, FilesDir := filesDir, Tasks := firstTasks.take n,
        NextTask := (min n 3 : Nat) + 1, NextObject := 1, Disk := [] } := by
  rcases Nat.lt_or_ge n 3 with h | h
  · interval_cases n <;> rfl
  · obtain ⟨k, rfl⟩ := Nat.exists_eq_add_of_le h
    rw [afterNewTasks_full]
    have h3 : min (3 + k) 3 = 3 := by omega
    have h4 : firstTasks.take (3 + k) = firstTasks := by
      apply List.take_of_length_le
      simp [firstTasks]
    rw [h3, h4]
    rfl

/-- C1: in the run of `n` consecutive `NewTask` calls from the initial registry,
the registry holds the first `n` of the tasks numbered "1", "2", "3" (each
without objects) and the counter is one more than their number; the next call
returns the capacity error exactly when three tasks are held, and then leaves
the handler as it is; otherwise it succeeds, appends one task without objects
whose `Number` is the decimal rendering of the counter, and adds one to the
counter. -/
theorem NewTask_sequence (filesDir : String) (n : Nat) :
    (afterNewTasks (initHandler filesDir) n).Tasks = firstTasks.take n ∧
    (afterNewTasks (initHandler filesDir) n).NextTask = (min n MaxTasks : Nat) + 1 ∧
    ((NewTask (afterNewTasks (initHandler filesDir) n)).1 = Result.err errTooManyTasks ↔
      (afterNewTasks (initHandler filesDir) n).Tasks.length = MaxTasks) ∧
    ((afterNewTasks (initHandler filesDir) n).Tasks.length = MaxTasks →
      NewTask (afterNewTasks (initHandler filesDir) n) =
        (Result.err errTooManyTasks, afterNewTasks (initHandler filesDir) n)) ∧
    ((afterNewTasks (initHandler filesDir) n).Tasks.length ≠ MaxTasks →
      NewTask (afterNewTasks (initHandler filesDir) n) =
        (Result.ok,
         { afterNewTasks (initHandler filesDir) n with
           Tasks := (afterNewTasks (initHandler filesDir) n).Tasks ++
             [{ Objects := [], ZipName := "",
                Number := Sprint (afterNewTasks (initHandler filesDir) n).NextTask }],
           NextTask := (afterNewTasks (initHandler filesDir) n).NextTask + 1 })) := by
  rw [afterNewTasks_init]
  refine ⟨rfl, rfl, ?_, ?_, ?_⟩
  · unfold NewTask
    simp only [beq_iff_eq]
    by_cases hl : (firstTasks.take n).length = MaxTasks
    · rw [if_pos hl]
      simp [hl]
    · rw [if_neg hl]
      simp only [false_iff, reduceCtorEq]
      exact hl
  · intro hl
    simp only [] at hl
    unfold NewTask
    simp [hl]
  · intro hl
    simp only [] at hl
    have hn : n < 3 := by
      by_contra hc
      apply hl
      simp [firstTasks, MaxTasks]
      omega
    unfold NewTask
    simp only [beq_iff_eq, hl, if_false]
    interval_cases n <;> rfl

theorem NewTask_sequence_full :
    NewTask (afterNewTasks (initHandler "/tmp/d") 3) =
      (Result.err errTooManyTasks, afterNewTasks (initHandler "/tmp/d") 3) :=
  (NewTask_sequence "/tmp/d" 3).2.2.2.1 (by decide)

/-! ## The lookup of a task -/

theorem findTaskLoop_append (tn : String) (ts : List TTask) (t : TTask) (k : Nat)
    (acc : Option Nat) :
    findTaskLoop tn (ts ++ [t]) k acc =
      if t.Number = tn then some (k + ts.length) else findTaskLoop tn ts k acc := by
  induction ts generalizing k acc with
  | nil => simp [findTaskLoop]
  | cons a ts ih =>
    show findTaskLoop tn (ts ++ [t]) (k + 1) _ = _
    rw [ih]
    have : k + 1 + ts.length = k + (ts.length + 1) := by omega
    simp only [findTaskLoop, List.length_cons, this]

theorem findTask_append (ts : List TTask) (t : TTask) (tn : String) :
    findTask (ts ++ [t]) tn = if t.Number = tn then some ts.length else findTask ts tn := by
  unfold findTask
  rw [findTaskLoop_append]
  simp

theorem findTask_nil (tn : String) : findTask [] tn = none := rfl

theorem findTask_eq_none (ts : List TTask) (tn : String) :
    findTask ts tn = none ↔ ∀ t ∈ ts, t.Number ≠ tn := by
  induction ts using List.reverseRecOn with
  | nil => simp [findTask_nil]
  | append_singleton ts t ih =>
    rw [findTask_append]
    by_cases ht : t.Number = tn
    · simp only [ht, if_true]
      constructor
      · intro h
        exact Option.noConfusion h
      · intro h
        exact absurd ht (h t (by simp))
    · simp only [ht, if_false, ih, List.mem_append, List.mem_singleton]
      constructor
      · intro h x hx
        rcases hx with hx | hx
        · exact h x hx
        · rw [hx]; exact ht
      · intro h x hx
        exact h x (Or.inl hx)

theorem findTask_some (ts : List TTask) (tn : String) (i : Nat) (h : findTask ts tn = some i) :
    ∃ t, ts[i]? = some t ∧ t.Number = tn := by
  induction ts using List.reverseRecOn with
  | nil => simp [findTask_nil] at h
  | append_singleton ts t ih =>
    rw [findTask_append] at h
    by_cases ht : t.Number = tn
    · simp only [ht, if_true, Option.some.injEq] at h
      subst h
      exact ⟨t, by simp, ht⟩
    · simp only [ht, if_false] at h
      obtain ⟨x, hx, hn⟩ := ih h
      refine ⟨x, ?_, hn⟩
      have hlt : i < ts.length := by
        by_contra hc
        rw [List.getElem?_eq_none (by omega)] at hx
        exact Option.noConfusion hx
      rw [List.getElem?_append_left hlt]
      exact hx

theorem findTask_of_nodup (ts : List TTask) (i : Nat) (t : TTask)
    (hnd : (ts.map TTask.Number).Nodup) (hi : ts[i]? = some t) :
    findTask ts t.Number = some i := by
  induction ts using List.reverseRecOn with
  | nil => simp at hi
  | append_singleton ts a ih =>
    rw [findTask_append]
    rw [List.map_append, List.nodup_append] at hnd
    obtain ⟨hnd1, _, hdis⟩ := hnd
    by_cases hlt : i < ts.length
    · rw [List.getElem?_append_left hlt] at hi
      have hmem : t.Number ∈ ts.map TTask.Number :=
        List.mem_map.mpr ⟨t, List.getElem?_mem hi, rfl⟩
      have hne : a.Number ≠ t.Number := by
        intro he
        exact hdis hmem (by simp [he])
      simp only [hne, if_false]
      exact ih hnd1 hi
    · have hi2 := hi
      rw [List.getElem?_append_right (by omega)] at hi2
      have hz : i - ts.length = 0 := by
        by_contra hc
        rw [List.getElem?_eq_none (by simp; omega)] at hi2
        exact Option.noConfusion hi2
      rw [hz] at hi2
      simp only [List.getElem?_cons_zero, Option.some.injEq] at hi2
      subst hi2
      simp only [if_true]
      congr 1
      omega

theorem findTask_congr (ts ts' : List TTask) (tn : String)
    (h : ts.map TTask.Number = ts'.map TTask.Number) : findTask ts tn = findTask ts' tn := by
  induction ts using List.reverseRecOn generalizing ts' with
  | nil =>
    have : ts' = [] := by simpa using h.symm
    rw [this]
  | append_singleton ts a ih =>
    rcases List.eq_nil_or_concat ts' with h0 | ⟨l, b, rfl⟩
    · rw [h0] at h; simp at h
    · simp only [List.concat_eq_append, List.map_append, List.map_cons, List.map_nil] at h
      obtain ⟨h1, h2⟩ := List.append_inj' h rfl
      simp only [List.cons.injEq, and_true] at h2
      rw [List.concat_eq_append, findTask_append, findTask_append, ih l h1, h2]
      have hlen : ts.length = l.length := by
        have := congrArg List.length h1
        simpa using this
      rw [hlen]

/-! ## The faults of `NewFile` -/

theorem WgDone_WgAdd (h : ServerHandler) : WgDone { h with Wg := h.Wg + 1 } = some h := by
  simp [WgDone]

theorem fetchInto_Wg (env : Env) (h : ServerHandler) (i : Nat) (task : TTask)
    (u tn ext : String) : (fetchInto env h i task u tn ext).st.Wg = h.Wg := by
  unfold fetchInto
  simp only []
  repeat (first | rfl | split)

theorem WgDone_fetchInto (env : Env) (h : ServerHandler) (i : Nat) (task : TTask)
    (u tn ext : String) :
    WgDone (fetchInto env (WgAdd h) i task u tn ext).st =
      some { (fetchInto env (WgAdd h) i task u tn ext).st with Wg := h.Wg } := by
  unfold WgDone
  rw [fetchInto_Wg]
  simp [WgAdd]

theorem NewFile_fault_iff (env : Env) (h : ServerHandler) (objUrl tn : String) :
    (NewFile env h objUrl tn).res = Result.fault ↔ ∀ t ∈ h.Tasks, t.Number ≠ tn := by
  rw [← findTask_eq_none]
  unfold NewFile
  cases hf : findTask h.Tasks tn with
  | none => simp
  | some i =>
    obtain ⟨t, ht, _⟩ := findTask_some _ _ _ hf
    simp only [ht, reduceCtorEq, iff_false]
    split
    · simp
    · split
      · simp
      · split
        · simp
        · rw [WgDone_fetchInto]
          simp only []
          unfold fetchInto
          simp only []
          repeat (first | simp | split)

/-! ## The paths of `NewFile` -/

theorem NewFile_full (env : Env) (h : ServerHandler) (objUrl tn : String) (i : Nat) (t : TTask)
    (hf : findTask h.Tasks tn = some i) (ht : h.Tasks[i]? = some t)
    (hlen : t.Objects.length = MaxObjects) :
    NewFile env h objUrl tn = ⟨Result.err errTooManyObjects, h, []⟩ := by
  unfold NewFile
  simp [hf, ht, hlen]

theorem NewFile_probe_error (env : Env) (h : ServerHandler) (objUrl tn : String) (i : Nat)
    (t : TTask) (e : String)
    (hf : findTask h.Tasks tn = some i) (ht : h.Tasks[i]? = some t)
    (hlen : t.Objects.length ≠ MaxObjects) (hp : env.Head (Trim objUrl " ") = Except.error e) :
    NewFile env h objUrl tn = ⟨Result.err errFileInfo, h, [Event.Head (Trim objUrl " ")]⟩ := by
  unfold NewFile
  simp [hf, ht, hlen, hp]

theorem NewFile_bad_type (env : Env) (h : ServerHandler) (objUrl tn : String) (i : Nat)
    (t : TTask) (conType : String)
    (hf : findTask h.Tasks tn = some i) (ht : h.Tasks[i]? = some t)
    (hlen : t.Objects.length ≠ MaxObjects) (hp : env.Head (Trim objUrl " ") = Except.ok conType)
    (hext : chooseExt conType = "") :
    NewFile env h objUrl tn = ⟨Result.err errFileType, h, [Event.Head (Trim objUrl " ")]⟩ := by
  unfold NewFile
  simp [hf, ht, hlen, hp, hext]

theorem NewFile_fetch (env : Env) (h : ServerHandler) (objUrl tn : String) (i : Nat)
    (t : TTask) (conType : String)
    (hf : findTask h.Tasks tn = some i) (ht : h.Tasks[i]? = some t)
    (hlen : t.Objects.length ≠ MaxObjects) (hp : env.Head (Trim objUrl " ") = Except.ok conType)
    (hext : chooseExt conType ≠ "") :
    NewFile env h objUrl tn =
      ⟨(fetchInto env (WgAdd h) i t (Trim objUrl " ") tn (chooseExt conType)).res,
       { (fetchInto env (WgAdd h) i t (Trim objUrl " ") tn (chooseExt conType)).st with
         Wg := h.Wg },
       Event.Head (Trim objUrl " ") :: Event.WgAdd ::
         ((fetchInto env (WgAdd h) i t (Trim objUrl " ") tn (chooseExt conType)).trace ++
           [Event.WgDone])⟩ := by
  unfold NewFile
  simp only [hf, ht, hp, beq_iff_eq, hlen, hext, if_false]
  rw [WgDone_fetchInto]

/-! ## The content types accepted -/

theorem chooseExt_eq (c : String) :
    chooseExt c =
      if c = "application/pdf" then ".pdf" else if c = "image/jpeg" then ".jpg" else "" := by
  simp [chooseExt, TypeList, chooseExtLoop]

/-- C5: the validation step of `NewFile` is the closed mapping of two entries:
the extension chosen is ".pdf" exactly for "application/pdf", ".jpg" exactly for
"image/jpeg", and a content type is rejected exactly when it is neither; the
empty string, another letter case and a value with parameters are rejected. -/
theorem validate_closed (c : String) :
    (validate c = some ".pdf" ↔ c = "application/pdf") ∧
    (validate c = some ".jpg" ↔ c = "image/jpeg") ∧
    (validate c = none ↔ (c ≠ "application/pdf" ∧ c ≠ "image/jpeg")) ∧
    (chooseExt c = "" ↔ validate c = none) ∧
    validate "" = none ∧ validate "Application/PDF" = none ∧
    validate "application/pdf; charset=utf-8" = none ∧ validate "image/jpg" = none := by
  have hv : validate c = if chooseExt c = "" then none else some (chooseExt c) := by
    simp [validate]
  rw [hv, chooseExt_eq]
  refine ⟨?_, ?_, ?_, ?_, by decide, by decide, by decide, by decide⟩
  · by_cases h1 : c = "application/pdf"
    · simp [h1]
    · by_cases h2 : c = "image/jpeg"
      · simp [h2]
      · simp [h1, h2]
  · by_cases h1 : c = "application/pdf"
    · simp [h1]
    · by_cases h2 : c = "image/jpeg"
      · simp [h2]
      · simp [h1, h2]
  · by_cases h1 : c = "application/pdf"
    · simp [h1]
    · by_cases h2 : c = "image/jpeg"
      · simp [h2]
      · simp [h1, h2]
  · by_cases h1 : c = "application/pdf"
    · simp [h1]
    · by_cases h2 : c = "image/jpeg"
      · simp [h2]
      · simp [h1, h2]

/-! ## A task id that no task carries -/

/-- The lookup of lines 157-162 leaves `task` nil when no task carries the
id, and line 164 then dereferences it. -/
theorem NewFile_unknown_task (env : Env) (h : ServerHandler) (objUrl tn : String)
    (hno : ∀ t ∈ h.Tasks, t.Number ≠ tn) :
    NewFile env h objUrl tn = ⟨Result.fault, h, []⟩ := by
  unfold NewFile
  rw [(findTask_eq_none h.Tasks tn).mpr hno]

/-- C2, on the code: with no task in the registry, `NewFile` on the task id "1"
does not return an error value, it faults; so does `NewFile` on the id "01"
when the only task is the task "1". -/
theorem NewFile_missing_task_faults :
    (NewFile pdfEnv (initHandler "/tmp/d") "http://x/doc.pdf" "1").res = Result.fault ∧
    (NewFile pdfEnv (afterNewTasks (initHandler "/tmp/d") 1) "http://x/doc.pdf" "01").res =
      Result.fault := by
  constructor <;> decide

/-! ## Case analysis of `NewFile` -/

theorem NewFile_cases (env : Env) (h : ServerHandler) (objUrl tn : String) :
    (findTask h.Tasks tn = none ∧ NewFile env h objUrl tn = ⟨Result.fault, h, []⟩) ∨
    ∃ i t, findTask h.Tasks tn = some i ∧ h.Tasks[i]? = some t ∧ t.Number = tn ∧
      ((t.Objects.length = MaxObjects ∧
          NewFile env h objUrl tn = ⟨Result.err errTooManyObjects, h, []⟩) ∨
       (t.Objects.length ≠ MaxObjects ∧
          ((∃ e, env.Head (Trim objUrl " ") = Except.error e ∧
              NewFile env h objUrl tn =
                ⟨Result.err errFileInfo, h, [Event.Head (Trim objUrl " ")]⟩) ∨
           (∃ c, env.Head (Trim objUrl " ") = Except.ok c ∧
              ((chooseExt c = "" ∧
                  NewFile env h objUrl tn =
                    ⟨Result.err errFileType, h, [Event.Head (Trim objUrl " ")]⟩) ∨
               (chooseExt c ≠ "" ∧
                  NewFile env h objUrl tn =
                    ⟨(fetchInto env (WgAdd h) i t (Trim objUrl " ") tn (chooseExt c)).res,
                     { (fetchInto env (WgAdd h) i t (Trim objUrl " ") tn (chooseExt c)).st with
                       Wg := h.Wg },
                     Event.Head (Trim objUrl " ") :: Event.WgAdd ::
                       ((fetchInto env (WgAdd h) i t (Trim objUrl " ") tn (chooseExt c)).trace ++
                         [Event.WgDone])⟩)))))) := by
  cases hf : findTask h.Tasks tn with
  | none =>
    left
    exact ⟨rfl, NewFile_unknown_task env h objUrl tn ((findTask_eq_none _ _).mp hf)⟩
  | some i =>
    right
    obtain ⟨t, ht, hn⟩ := findTask_some _ _ _ hf
    refine ⟨i, t, rfl, ht, hn, ?_⟩
    by_cases hlen : t.Objects.length = MaxObjects
    · left
      exact ⟨hlen, NewFile_full env h objUrl tn i t hf ht hlen⟩
    · right
      refine ⟨hlen, ?_⟩
      cases hp : env.Head (Trim objUrl " ") with
      | error e =>
        left
        exact ⟨e, rfl, NewFile_probe_error env h objUrl tn i t e hf ht hlen hp⟩
      | ok c =>
        right
        refine ⟨c, rfl, ?_⟩
        by_cases hext : chooseExt c = ""
        · left
          exact ⟨hext, NewFile_bad_type env h objUrl tn i t c hf ht hlen hp hext⟩
        · right
          exact ⟨hext, NewFile_fetch env h objUrl tn i t c hf ht hlen hp hext⟩

theorem fetchInto_cases (env : Env) (h : ServerHandler) (i : Nat) (task : TTask)
    (u tn ext : String) :
    (CreateTemp env h.Disk h.FilesDir ("file-task-" ++ tn ++ "-*" ++ ext) = none ∧
      fetchInto env h i task u tn ext =
        ⟨Result.err errFileCreate, h,
         [Event.CreateTemp h.FilesDir ("file-task-" ++ tn ++ "-*" ++ ext)]⟩) ∨
    ∃ file, CreateTemp env h.Disk h.FilesDir ("file-task-" ++ tn ++ "-*" ++ ext) = some file ∧
      ((∃ e tr, fetchInto env h i task u tn ext =
            ⟨Result.err e, { h with Disk := h.Disk ++ [file] }, tr⟩ ∧
            Event.WgAdd ∉ tr ∧ Event.WgDone ∉ tr) ∨
       fetchInto env h i task u tn ext =
         ⟨Result.ok,
          { h with
            Disk := h.Disk ++ [file],
            Tasks := h.Tasks.set i
              { task with
                Objects := task.Objects ++
                  [{ Url := u, Path := file, Name := pathBase file, Status := "" }] } },
          [Event.CreateTemp h.FilesDir ("file-task-" ++ tn ++ "-*" ++ ext), Event.OpenFile file,
           Event.Get u, Event.Copy file, Event.Append file]⟩) := by
  unfold fetchInto
  simp only []
  cases hc : CreateTemp env h.Disk h.FilesDir ("file-task-" ++ tn ++ "-*" ++ ext) with
  | none => left; exact ⟨rfl, rfl⟩
  | some file =>
    right
    refine ⟨file, rfl, ?_⟩
    simp only []
    cases ho : env.OpenFile file with
    | some e => left; exact ⟨e, _, rfl, by simp, by simp⟩
    | none =>
      simp only []
      cases hg : env.Get u with
      | some e => left; exact ⟨e, _, rfl, by simp, by simp⟩
      | none =>
        simp only []
        cases hcp : env.Copy with
        | some e => left; exact ⟨e, _, rfl, by simp, by simp⟩
        | none => right; rfl

/-! ## The error paths of `NewFile` -/

/-- C4: when the probe of the trimmed URL succeeds with a content type that is
neither "application/pdf" nor "image/jpeg", `NewFile` on an existing task with
fewer than three objects returns the error of the unsupported type, leaves the
handler as it is (no file in the storage directory, no object, the same work
count) and makes no call to the outside but the probe: no file is created and
no work is registered. This holds for every task the call on its `Number`
resolves to, hence for every existing task when the `Number`s of the registry
are pairwise distinct. -/
theorem NewFile_unsupported_type (env : Env) (h : ServerHandler) (objUrl conType : String)
    (hp : env.Head (Trim objUrl " ") = Except.ok conType)
    (h1 : conType ≠ "application/pdf") (h2 : conType ≠ "image/jpeg") :
    (∀ (i : Nat) (t : TTask), h.Tasks[i]? = some t → findTask h.Tasks t.Number = some i →
      t.Objects.length < MaxObjects →
      NewFile env h objUrl t.Number =
        ⟨Result.err errFileType, h, [Event.Head (Trim objUrl " ")]⟩) ∧
    ((h.Tasks.map TTask.Number).Nodup → ∀ t ∈ h.Tasks, t.Objects.length < MaxObjects →
      NewFile env h objUrl t.Number =
        ⟨Result.err errFileType, h, [Event.Head (Trim objUrl " ")]⟩) := by
  have hext : chooseExt conType = "" := by
    rw [chooseExt_eq]
    simp [h1, h2]
  have key : ∀ (i : Nat) (t : TTask), h.Tasks[i]? = some t →
      findTask h.Tasks t.Number = some i → t.Objects.length < MaxObjects →
      NewFile env h objUrl t.Number =
        ⟨Result.err errFileType, h, [Event.Head (Trim objUrl " ")]⟩ := by
    intro i t ht hsel hlen
    exact NewFile_bad_type env h objUrl t.Number i t conType hsel ht (Nat.ne_of_lt hlen) hp hext
  refine ⟨key, ?_⟩
  intro hnd t hmem hlen
  obtain ⟨i, hi⟩ := List.mem_iff_getElem?.mp hmem
  exact key i t hi (findTask_of_nodup h.Tasks i t hnd hi) hlen

theorem NewFile_unsupported_type_html :
    NewFile htmlEnv (afterNewTasks (initHandler "/tmp/d") 1) " http://x/index.html " "1" =
      ⟨Result.err errFileType, afterNewTasks (initHandler "/tmp/d") 1,
       [Event.Head "http://x/index.html"]⟩ :=
  (NewFile_unsupported_type htmlEnv (afterNewTasks (initHandler "/tmp/d") 1)
    " http://x/index.html " "text/html" rfl (by decide) (by decide)).1 0 ⟨[], "", "1"⟩
    (by decide) (by decide) (by decide)

/-- C9: a call of `NewFile` that returns leaves the counter of the wait group
as it found it, whatever the outcome; it registers work at most once, every
`Wg.Add(1)` it makes is matched by one `Wg.Done()`, and that release is the
last thing the call does. -/
theorem NewFile_work_count (env : Env) (h : ServerHandler) (objUrl tn : String)
    (hret : (NewFile env h objUrl tn).res ≠ Result.fault) :
    (NewFile env h objUrl tn).st.Wg = h.Wg ∧
    (NewFile env h objUrl tn).trace.count Event.WgAdd =
      (NewFile env h objUrl tn).trace.count Event.WgDone ∧
    (NewFile env h objUrl tn).trace.count Event.WgAdd ≤ 1 ∧
    (Event.WgAdd ∈ (NewFile env h objUrl tn).trace →
      (NewFile env h objUrl tn).trace.getLast? = some Event.WgDone) := by
  rcases NewFile_cases env h objUrl tn with ⟨_, hN⟩ | ⟨i, t, _, _, _, hc⟩
  · rw [hN] at hret
    exact absurd rfl hret
  · rcases hc with ⟨_, hN⟩ | ⟨_, ⟨e, _, hN⟩ | ⟨c, _, ⟨_, hN⟩ | ⟨_, hN⟩⟩⟩
    · rw [hN]; simp
    · rw [hN]; simp
    · rw [hN]; simp
    · rw [hN]
      have hcount : ∀ ev, ev = Event.WgAdd ∨ ev = Event.WgDone →
          ev ∉ (fetchInto env (WgAdd h) i t (Trim objUrl " ") tn (chooseExt c)).trace := by
        intro ev hev
        rcases fetchInto_cases env (WgAdd h) i t (Trim objUrl " ") tn (chooseExt c) with
          ⟨_, hF⟩ | ⟨file, _, ⟨e, tr, hF, ha, hd⟩ | hF⟩
        · rw [hF]; rcases hev with rfl | rfl <;> simp
        · rw [hF]; rcases hev with rfl | rfl
          · exact ha
          · exact hd
        · rw [hF]; rcases hev with rfl | rfl <;> simp
      have ha := hcount Event.WgAdd (Or.inl rfl)
      have hd := hcount Event.WgDone (Or.inr rfl)
      refine ⟨rfl, ?_, ?_, ?_⟩
      · simp [List.count_cons, List.count_append, List.count_eq_zero_of_not_mem ha,
          List.count_eq_zero_of_not_mem hd]
      · simp [List.count_cons, List.count_append, List.count_eq_zero_of_not_mem ha]
      · intro _
        show (Event.Head (Trim objUrl " ") :: Event.WgAdd ::
          ((fetchInto env (WgAdd h) i t (Trim objUrl " ") tn (chooseExt c)).trace ++
            [Event.WgDone])).getLast? = some Event.WgDone
        rw [← List.cons_append, ← List.cons_append, List.getLast?_append]
        simp

theorem NewFile_work_count_pdf :
    (NewFile pdfEnv (afterNewTasks (initHandler "/tmp/d") 1) " http://x/doc.pdf" "1").st.Wg = 1 :=
  (NewFile_work_count pdfEnv (afterNewTasks (initHandler "/tmp/d") 1) " http://x/doc.pdf" "1"
    (by decide)).1

/-! ## The file created by `NewFile` -/

theorem pattern_split_pdf (tn : String) :
    prefixAndSuffix ("file-task-" ++ tn ++ "-*" ++ ".pdf") =
      if tn.data.any (fun c => c == '/') then none
      else some ("file-task-" ++ tn ++ "-", ".pdf") := by
  have hd : ("file-task-" ++ tn ++ "-*" ++ ".pdf").data =
      "file-task-".data ++ tn.data ++ ['-', '*', '.', 'p', 'd', 'f'] := by
    simp [String.data_append]
  unfold prefixAndSuffix
  rw [hd]
  simp only [List.reverse_append, List.reverse_cons, List.reverse_nil, List.nil_append,
    List.cons_append, List.any_append, List.any_cons]
  by_cases hs : tn.data.any (fun c => c == '/') = true
  · simp [hs]
  · simp [hs]
    apply String.ext
    simp [String.data_append]

theorem pattern_split_jpg (tn : String) :
    prefixAndSuffix ("file-task-" ++ tn ++ "-*" ++ ".jpg") =
      if tn.data.any (fun c => c == '/') then none
      else some ("file-task-" ++ tn ++ "-", ".jpg") := by
  have hd : ("file-task-" ++ tn ++ "-*" ++ ".jpg").data =
      "file-task-".data ++ tn.data ++ ['-', '*', '.', 'j', 'p', 'g'] := by
    simp [String.data_append]
  unfold prefixAndSuffix
  rw [hd]
  simp only [List.reverse_append, List.reverse_cons, List.reverse_nil, List.nil_append,
    List.cons_append, List.any_append, List.any_cons]
  by_cases hs : tn.data.any (fun c => c == '/') = true
  · simp [hs]
  · simp [hs]
    apply String.ext
    simp [String.data_append]

theorem createLoop_some (env : Env) (disk : List String) (pfx sfx : String) (fuel k : Nat)
    (name : String) (h : createLoop env disk pfx sfx fuel k = some name) :
    name ∉ disk ∧ ∃ j, name = pfx ++ nextRandom env j ++ sfx := by
  induction fuel generalizing k with
  | zero => simp [createLoop] at h
  | succ fuel ih =>
    unfold createLoop at h
    simp only [] at h
    split at h
    · exact Option.noConfusion h
    · split at h
      · exact ih _ h
      · rename_i hnot
        simp only [Option.some.injEq] at h
        subst h
        exact ⟨hnot, k, rfl⟩

theorem CreateTemp_some (env : Env) (disk : List String) (dir tn ext file : String)
    (hext : ext = ".pdf" ∨ ext = ".jpg")
    (h : CreateTemp env disk dir ("file-task-" ++ tn ++ "-*" ++ ext) = some file) :
    file ∉ disk ∧
    ∃ j, file = joinPath (if dir == "" then env.TempDir else dir) ("file-task-" ++ tn ++ "-") ++
      nextRandom env j ++ ext := by
  unfold CreateTemp at h
  simp only [] at h
  have hps : prefixAndSuffix ("file-task-" ++ tn ++ "-*" ++ ext) =
      if tn.data.any (fun c => c == '/') then none
      else some ("file-task-" ++ tn ++ "-", ext) := by
    rcases hext with rfl | rfl
    · exact pattern_split_pdf tn
    · exact pattern_split_jpg tn
  by_cases hs : tn.data.any (fun c => c == '/') = true
  · rw [hps, if_pos hs] at h
    exact Option.noConfusion h
  · rw [hps, if_neg hs] at h
    exact createLoop_some _ _ _ _ _ _ _ h

theorem chooseExt_ne_empty (c : String) (h : chooseExt c ≠ "") :
    (c = "application/pdf" ∧ chooseExt c = ".pdf") ∨ (c = "image/jpeg" ∧ chooseExt c = ".jpg") := by
  rw [chooseExt_eq] at h ⊢
  by_cases h1 : c = "application/pdf"
  · left; simp [h1]
  · by_cases h2 : c = "image/jpeg"
    · right; simp [h2]
    · simp [h1, h2] at h

/-- C6: when `NewFile` returns success, the call resolved to an existing task,
the probe of the trimmed URL gave one of the two accepted content types,
exactly one file was added to the storage directory (a path that was not
there before, made of the directory, "file-task-", the task id, "-", a random
decimal number and the extension), its name ends with ".pdf" for
"application/pdf" and with ".jpg" for "image/jpeg", and the tasks are those of
before with one object appended to the task resolved: the trimmed URL, the
path of the new file, the base name of that path. The other tasks, the
earlier objects of the task, both counters, the directory name and the work
count are as before. -/
theorem NewFile_success (env : Env) (h : ServerHandler) (objUrl tn : String)
    (hok : (NewFile env h objUrl tn).res = Result.ok) :
    ∃ i t file conType,
      findTask h.Tasks tn = some i ∧ h.Tasks[i]? = some t ∧ t.Number = tn ∧
      env.Head (Trim objUrl " ") = Except.ok conType ∧
      ((conType = "application/pdf" ∧ ".pdf".data <:+ file.data) ∨
       (conType = "image/jpeg" ∧ ".jpg".data <:+ file.data)) ∧
      file ∉ h.Disk ∧
      (∃ j, file = joinPath (if h.FilesDir == "" then env.TempDir else h.FilesDir)
          ("file-task-" ++ tn ++ "-") ++ nextRandom env j ++ chooseExt conType) ∧
      (NewFile env h objUrl tn).st.Disk = h.Disk ++ [file] ∧
      (NewFile env h objUrl tn).st.Tasks =
        h.Tasks.set i
          { t with
            Objects := t.Objects ++
              [{ Url := Trim objUrl " ", Path := file, Name := pathBase file, Status := "" }] } ∧
      (NewFile env h objUrl tn).st.NextTask = h.NextTask ∧
      (NewFile env h objUrl tn).st.NextObject = h.NextObject ∧
      (NewFile env h objUrl tn).st.FilesDir = h.FilesDir ∧
      (NewFile env h objUrl tn).st.Wg = h.Wg := by
  rcases NewFile_cases env h objUrl tn with ⟨_, hN⟩ | ⟨i, t, hf, ht, hn, hc⟩
  · rw [hN] at hok
    exact Result.noConfusion hok
  · rcases hc with ⟨_, hN⟩ | ⟨_, ⟨e, _, hN⟩ | ⟨c, hp, ⟨_, hN⟩ | ⟨hext, hN⟩⟩⟩
    · rw [hN] at hok; exact Result.noConfusion hok
    · rw [hN] at hok; exact Result.noConfusion hok
    · rw [hN] at hok; exact Result.noConfusion hok
    · rw [hN] at hok ⊢
      simp only [] at hok
      rcases fetchInto_cases env (WgAdd h) i t (Trim objUrl " ") tn (chooseExt c) with
        ⟨_, hF⟩ | ⟨file, hct, ⟨e, tr, hF, _, _⟩ | hF⟩
      · rw [hF] at hok; exact Result.noConfusion hok
      · rw [hF] at hok; exact Result.noConfusion hok
      · have hty := chooseExt_ne_empty c hext
        have hcr := CreateTemp_some env h.Disk h.FilesDir tn (chooseExt c) file
          (by rcases hty with ⟨_, h1⟩ | ⟨_, h1⟩ <;> simp [h1]) hct
        obtain ⟨hfresh, j, hname⟩ := hcr
        refine ⟨i, t, file, c, hf, ht, hn, hp, ?_, hfresh, ⟨j, hname⟩, ?_, ?_, ?_, ?_, ?_, ?_⟩
        · rcases hty with ⟨h1, h2⟩ | ⟨h1, h2⟩
          · left
            refine ⟨h1, ?_⟩
            rw [hname, h2, String.data_append]
            exact List.suffix_append _ _
          · right
            refine ⟨h1, ?_⟩
            rw [hname, h2, String.data_append]
            exact List.suffix_append _ _
        all_goals first | (rw [hF]; done) | (rw [hF]; rfl)

theorem NewFile_success_pdf :
    ∃ file, ".pdf".data <:+ file.data ∧
      (NewFile pdfEnv (afterNewTasks (initHandler "/tmp/d") 1) " http://x/doc.pdf" "1").st.Disk =
        (afterNewTasks (initHandler "/tmp/d") 1).Disk ++ [file] := by
  obtain ⟨i, t, file, c, _, _, _, hp, hsuf, _, _, hd, _⟩ :=
    NewFile_success pdfEnv (afterNewTasks (initHandler "/tmp/d") 1) " http://x/doc.pdf" "1"
      (by decide)
  refine ⟨file, ?_, hd⟩
  rcases hsuf with ⟨_, hs⟩ | ⟨hc, _⟩
  · exact hs
  · rw [hc] at hp
    simp [pdfEnv] at hp

/-! ## What `NewFile` does to the tasks -/

theorem NewFile_tasks (env : Env) (h : ServerHandler) (objUrl tn : String) :
    (NewFile env h objUrl tn).st.NextTask = h.NextTask ∧
    (((NewFile env h objUrl tn).res ≠ Result.ok ∧ (NewFile env h objUrl tn).st.Tasks = h.Tasks) ∨
     ((NewFile env h objUrl tn).res = Result.ok ∧
        ∃ i t o, findTask h.Tasks tn = some i ∧ h.Tasks[i]? = some t ∧ t.Number = tn ∧
          t.Objects.length ≠ MaxObjects ∧
          (NewFile env h objUrl tn).st.Tasks =
            h.Tasks.set i { t with Objects := t.Objects ++ [o] })) := by
  rcases NewFile_cases env h objUrl tn with ⟨_, hN⟩ | ⟨i, t, hf, ht, hn, hc⟩
  · rw [hN]; simp
  · rcases hc with ⟨_, hN⟩ | ⟨hlen, ⟨e, _, hN⟩ | ⟨c, hp, ⟨_, hN⟩ | ⟨hext, hN⟩⟩⟩
    · rw [hN]; simp
    · rw [hN]; simp
    · rw [hN]; simp
    · rw [hN]
      rcases fetchInto_cases env (WgAdd h) i t (Trim objUrl " ") tn (chooseExt c) with
        ⟨_, hF⟩ | ⟨file, hct, ⟨e, tr, hF, _, _⟩ | hF⟩
      · rw [hF]
        exact ⟨rfl, Or.inl ⟨by simp, rfl⟩⟩
      · rw [hF]
        exact ⟨rfl, Or.inl ⟨by simp, rfl⟩⟩
      · rw [hF]
        exact ⟨rfl, Or.inr ⟨rfl, i, t, _, hf, ht, hn, hlen, rfl⟩⟩

/-! ## The invariant of sequential runs -/

theorem Inv_init (filesDir : String) : Inv (initHandler filesDir) :=
  ⟨0, by omega, rfl, rfl, by simp [initHandler]⟩

theorem Inv_length (h : ServerHandler) (n : Nat) (hn : n ≤ 3)
    (hnum : h.Tasks.map TTask.Number = (firstTasks.take n).map TTask.Number) :
    h.Tasks.length = n := by
  have := congrArg List.length hnum
  simp [firstTasks] at this
  omega

theorem Inv_NewTask (h : ServerHandler) (hinv : Inv h) : Inv (NewTask h).2 := by
  obtain ⟨n, hn, hnum, hnext, hobj⟩ := hinv
  have hlen := Inv_length h n hn hnum
  unfold NewTask
  by_cases hfull : h.Tasks.length = MaxTasks
  · simp only [beq_iff_eq, hfull, if_true]
    exact ⟨n, hn, hnum, hnext, hobj⟩
  · simp only [beq_iff_eq, hfull, if_false]
    have hlt : n < 3 := by
      rw [hlen] at hfull
      have : n ≠ 3 := hfull
      omega
    refine ⟨n + 1, by omega, ?_, ?_, ?_⟩
    · simp only [List.map_append, hnum, hnext, List.map_cons, List.map_nil]
      interval_cases n <;> rfl
    · simp only [hnext]
      interval_cases n <;> rfl
    · intro t ht
      simp only [List.mem_append, List.mem_singleton] at ht
      rcases ht with ht | ht
      · exact hobj t ht
      · rw [ht]
        simp [MaxObjects]

theorem Inv_NewFile (env : Env) (h : ServerHandler) (objUrl tn : String) (hinv : Inv h) :
    Inv (NewFile env h objUrl tn).st := by
  obtain ⟨n, hn, hnum, hnext, hobj⟩ := hinv
  obtain ⟨hnt, hc⟩ := NewFile_tasks env h objUrl tn
  rcases hc with ⟨_, htasks⟩ | ⟨_, i, t, o, hf, ht, _, hlen, htasks⟩
  · exact ⟨n, hn, by rw [htasks]; exact hnum, by rw [hnt]; exact hnext, by rw [htasks]; exact hobj⟩
  · have hmem : t ∈ h.Tasks := List.getElem?_mem ht
    have hilt : i < h.Tasks.length := by
      by_contra hcon
      rw [List.getElem?_eq_none (by omega)] at ht
      exact Option.noConfusion ht
    refine ⟨n, hn, ?_, by rw [hnt]; exact hnext, ?_⟩
    · rw [htasks, ← hnum]
      apply List.ext_getElem?
      intro k
      simp only [List.getElem?_map, List.getElem?_set]
      by_cases hk : i = k
      · subst hk
        simp [hilt, ht]
      · simp [hk]
    · rw [htasks]
      intro x hx
      rcases List.mem_or_eq_of_mem_set hx with hx | hx
      · exact hobj x hx
      · rw [hx]
        have := hobj t hmem
        simp only [List.length_append, List.length_singleton]
        omega

theorem Inv_StopServer (h : ServerHandler) (hinv : Inv h) : Inv (StopServer h).2 := by
  unfold StopServer WgDone
  split
  · rename_i heq
    exact hinv
  · rename_i h' heq
    split at heq
    · exact Option.noConfusion heq
    · simp only [Option.some.injEq] at heq
      rw [← heq]
      exact hinv

theorem Inv_exec (c : Call) (h : ServerHandler) (hinv : Inv h) : Inv (exec c h).2 := by
  cases c with
  | NewTask => exact Inv_NewTask h hinv
  | NewFile env objUrl tn => exact Inv_NewFile env h objUrl tn hinv
  | StopServer => exact Inv_StopServer h hinv

theorem Reachable_Inv (h : ServerHandler) (hr : Reachable h) : Inv h := by
  induction hr with
  | init filesDir => exact Inv_init filesDir
  | step c _ _ ih => exact Inv_exec c _ ih

theorem Inv_nodup (h : ServerHandler) (hinv : Inv h) : (h.Tasks.map TTask.Number).Nodup := by
  obtain ⟨n, hn, hnum, _, _⟩ := hinv
  rw [hnum]
  interval_cases n <;> decide

/-- C7: in every handler reached from the initial one by `NewTask`, `NewFile`
and `StopServer` calls that do not fault, with any arguments and any outcomes
of the probes and fetches, there are at most three tasks, every task has at
most three objects, and no two tasks have the same `Number`. -/
theorem Reachable_bounds (h : ServerHandler) (hr : Reachable h) :
    h.Tasks.length ≤ MaxTasks ∧
    (∀ t ∈ h.Tasks, t.Objects.length ≤ MaxObjects) ∧
    h.Tasks.Pairwise (fun a b => a.Number ≠ b.Number) := by
  have hinv := Reachable_Inv h hr
  have hnd := Inv_nodup h hinv
  obtain ⟨n, hn, hnum, _, hobj⟩ := hinv
  refine ⟨?_, hobj, ?_⟩
  · rw [Inv_length h n hn hnum]
    exact hn
  · exact (List.pairwise_map.mp hnd)

theorem Reachable_bounds_sample :
    sampleRun.Tasks.length ≤ MaxTasks ∧
    (∀ t ∈ sampleRun.Tasks, t.Objects.length ≤ MaxObjects) ∧
    sampleRun.Tasks.Pairwise (fun a b => a.Number ≠ b.Number) :=
  Reachable_bounds sampleRun
    (Reachable.step Call.StopServer
      (Reachable.step (Call.NewFile pdfEnv " http://x/doc.pdf" "1")
        (Reachable.step Call.NewTask (Reachable.init "/tmp/d") (by decide)) (by decide))
      (by decide))

/-! ## Counting the objects of a task -/

theorem objectCount_congr (h h' : ServerHandler) (tn : String) (ht : h'.Tasks = h.Tasks) :
    objectCount h' tn = objectCount h tn := by
  unfold objectCount
  rw [ht]

theorem Inv_fresh (h : ServerHandler) (hinv : Inv h) (hfull : h.Tasks.length ≠ MaxTasks) :
    ∀ t ∈ h.Tasks, t.Number ≠ Sprint h.NextTask := by
  obtain ⟨n, hn, hnum, hnext, _⟩ := hinv
  have hlen := Inv_length h n hn hnum
  have hlt : n < 3 := by
    rw [hlen] at hfull
    have : n ≠ 3 := hfull
    omega
  intro t ht
  have hmem : t.Number ∈ h.Tasks.map TTask.Number := List.mem_map.mpr ⟨t, ht, rfl⟩
  rw [hnum] at hmem
  rw [hnext]
  intro heq
  rw [heq] at hmem
  revert hmem
  interval_cases n <;> decide

theorem objectCount_NewTask (h : ServerHandler) (tn : String) (hinv : Inv h) :
    objectCount (NewTask h).2 tn = objectCount h tn := by
  unfold NewTask
  by_cases hfull : h.Tasks.length = MaxTasks
  · simp only [beq_iff_eq, hfull, if_true]
  · simp only [beq_iff_eq, hfull, if_false]
    unfold objectCount
    simp only []
    rw [findTask_append]
    by_cases hnew : Sprint h.NextTask = tn
    · simp only [hnew, if_true]
      have hnone : findTask h.Tasks tn = none := by
        rw [findTask_eq_none]
        intro t ht
        rw [← hnew]
        exact Inv_fresh h hinv hfull t ht
      rw [hnone]
      simp
    · simp only [hnew, if_false]
      cases hf : findTask h.Tasks tn with
      | none => rfl
      | some i =>
        obtain ⟨t, ht, _⟩ := findTask_some _ _ _ hf
        have hilt : i < h.Tasks.length := by
          by_contra hcon
          rw [List.getElem?_eq_none (by omega)] at ht
          exact Option.noConfusion ht
        simp only []
        rw [List.getElem?_append_left hilt]

theorem map_Number_set (ts : List TTask) (i : Nat) (t : TTask) (objs : List TObject)
    (ht : ts[i]? = some t) :
    (ts.set i { t with Objects := objs }).map TTask.Number = ts.map TTask.Number := by
  have hilt : i < ts.length := by
    by_contra hcon
    rw [List.getElem?_eq_none (by omega)] at ht
    exact Option.noConfusion ht
  apply List.ext_getElem?
  intro k
  simp only [List.getElem?_map, List.getElem?_set]
  by_cases hk : i = k
  · subst hk
    simp [hilt, ht]
  · simp [hk]

theorem objectCount_NewFile (env : Env) (h : ServerHandler) (objUrl tn' tn : String) :
    objectCount (NewFile env h objUrl tn').st tn =
      objectCount h tn + (if attaches tn (Call.NewFile env objUrl tn') h then 1 else 0) := by
  obtain ⟨_, hc⟩ := NewFile_tasks env h objUrl tn'
  rcases hc with ⟨hres, htasks⟩ | ⟨hres, i, t, o, hf, ht, hnum, _, htasks⟩
  · rw [objectCount_congr h _ tn htasks]
    simp [attaches, hres]
  · have hilt : i < h.Tasks.length := by
      by_contra hcon
      rw [List.getElem?_eq_none (by omega)] at ht
      exact Option.noConfusion ht
    have hfind : findTask (NewFile env h objUrl tn').st.Tasks tn = findTask h.Tasks tn := by
      apply findTask_congr
      rw [htasks]
      exact map_Number_set _ _ _ _ ht
    unfold objectCount
    rw [hfind, htasks]
    by_cases heq : tn' = tn
    · subst heq
      simp [attaches, hres, hf, ht, hilt]
    · have hatt : attaches tn (Call.NewFile env objUrl tn') h = false := by
        simp [attaches, heq]
      rw [hatt]
      cases hf2 : findTask h.Tasks tn with
      | none => rfl
      | some k =>
        obtain ⟨t2, ht2, hnum2⟩ := findTask_some _ _ _ hf2
        have hne : i ≠ k := by
          intro hik
          subst hik
          rw [ht] at ht2
          simp only [Option.some.injEq] at ht2
          subst ht2
          exact heq (hnum.symm.trans hnum2)
        simp only []
        rw [List.getElem?_set_ne hne]
        simp

theorem StopServer_tasks (h : ServerHandler) : (StopServer h).2.Tasks = h.Tasks := by
  unfold StopServer WgDone
  split
  · rfl
  · rename_i h' heq
    split at heq
    · exact Option.noConfusion heq
    · simp only [Option.some.injEq] at heq
      rw [← heq]

theorem objectCount_exec (c : Call) (h : ServerHandler) (tn : String) (hinv : Inv h) :
    objectCount (exec c h).2 tn = objectCount h tn + (if attaches tn c h then 1 else 0) := by
  cases c with
  | NewTask =>
    show objectCount (NewTask h).2 tn = _
    rw [objectCount_NewTask h tn hinv]
    simp [attaches]
  | NewFile env objUrl tn' => exact objectCount_NewFile env h objUrl tn' tn
  | StopServer =>
    show objectCount (StopServer h).2 tn = _
    rw [objectCount_congr h _ tn (StopServer_tasks h)]
    simp [attaches]

theorem run_Inv (calls : List Call) (h0 h : ServerHandler) (hinv : Inv h0)
    (hrun : run calls h0 = some h) : Inv h := by
  induction calls generalizing h0 with
  | nil =>
    simp only [run, Option.some.injEq] at hrun
    rw [← hrun]
    exact hinv
  | cons c rest ih =>
    simp only [run] at hrun
    split at hrun
    · exact Option.noConfusion hrun
    · exact ih _ (Inv_exec c h0 hinv) hrun

theorem objectCount_run (calls : List Call) (h0 h : ServerHandler) (tn : String) (hinv : Inv h0)
    (hrun : run calls h0 = some h) :
    objectCount h tn = objectCount h0 tn + attached tn calls h0 := by
  induction calls generalizing h0 with
  | nil =>
    simp only [run, Option.some.injEq] at hrun
    rw [← hrun]
    simp [attached]
  | cons c rest ih =>
    simp only [run] at hrun
    split at hrun
    · exact Option.noConfusion hrun
    · rw [ih _ (Inv_exec c h0 hinv) hrun, objectCount_exec c h0 tn hinv]
      simp only [attached]
      omega

/-! ## A task that is full -/

/-- C3: `NewFile` on an existing task that has three objects returns the
capacity error, makes no call to the outside (no probe, no fetch, no file
created, no work registered) and leaves the handler as it is, for every
environment and every URL. This holds for every task the call on its `Number`
resolves to, hence for every existing task when the `Number`s of the registry
are pairwise distinct. And in every run from the initial handler, once three
calls of `NewFile` on a task id have returned success, every further `NewFile`
on that id returns the capacity error in the same way. -/
theorem NewFile_full_task :
    (∀ (env : Env) (h : ServerHandler) (objUrl : String) (i : Nat) (t : TTask),
      h.Tasks[i]? = some t → findTask h.Tasks t.Number = some i →
      t.Objects.length = MaxObjects →
      NewFile env h objUrl t.Number = ⟨Result.err errTooManyObjects, h, []⟩) ∧
    (∀ (env : Env) (h : ServerHandler) (objUrl : String) (t : TTask),
      (h.Tasks.map TTask.Number).Nodup → t ∈ h.Tasks → t.Objects.length = MaxObjects →
      NewFile env h objUrl t.Number = ⟨Result.err errTooManyObjects, h, []⟩) ∧
    (∀ (filesDir : String) (calls : List Call) (h : ServerHandler) (tn : String),
      run calls (initHandler filesDir) = some h →
      3 ≤ attached tn calls (initHandler filesDir) →
      ∀ (env : Env) (objUrl : String),
        NewFile env h objUrl tn = ⟨Result.err errTooManyObjects, h, []⟩) := by
  refine ⟨?_, ?_, ?_⟩
  · intro env h objUrl i t ht hsel hlen
    exact NewFile_full env h objUrl t.Number i t hsel ht hlen
  · intro env h objUrl t hnd hmem hlen
    obtain ⟨i, hi⟩ := List.mem_iff_getElem?.mp hmem
    exact NewFile_full env h objUrl t.Number i t (findTask_of_nodup h.Tasks i t hnd hi) hi hlen
  · intro filesDir calls h tn hrun hatt env objUrl
    have hinv := run_Inv calls _ h (Inv_init filesDir) hrun
    have hcount := objectCount_run calls _ h tn (Inv_init filesDir) hrun
    have h0 : objectCount (initHandler filesDir) tn = 0 := rfl
    rw [h0] at hcount
    unfold objectCount at hcount
    cases hf : findTask h.Tasks tn with
    | none =>
      rw [hf] at hcount
      simp only [] at hcount
      omega
    | some i =>
      obtain ⟨t, ht, _⟩ := findTask_some _ _ _ hf
      rw [hf] at hcount
      simp only [ht] at hcount
      obtain ⟨_, _, _, _, hobj⟩ := hinv
      have hle := hobj t (List.getElem?_mem ht)
      have hlen : t.Objects.length = MaxObjects := by
        unfold MaxObjects at hle ⊢
        omega
      exact NewFile_full env h objUrl tn i t hf ht hlen

theorem NewFile_full_task_sample :
    NewFile htmlEnv fullHandler "http://x/d.pdf" "1" =
      ⟨Result.err errTooManyObjects, fullHandler, []⟩ ∧
    NewFile pdfEnv fullHandler "http://x/d.pdf" "1" =
      ⟨Result.err errTooManyObjects, fullHandler, []⟩ :=
  ⟨NewFile_full_task.1 htmlEnv fullHandler "http://x/d.pdf" 0
      (fullHandler.Tasks.getD 0 ⟨[], "", ""⟩) (by decide) (by decide) (by decide),
   NewFile_full_task.2.2 "/tmp/d" fullRun fullHandler "1" (by decide) (by decide) pdfEnv
      "http://x/d.pdf"⟩

/-! ## The shutdown coordinator -/

theorem coordRun_balance (steps : List CoordStep) (c0 c : Coord)
    (hrun : coordRun steps c0 = some c) :
    c.count + stops steps + c0.inflight = c.inflight + c0.count := by
  induction steps generalizing c0 with
  | nil =>
    simp only [coordRun, Option.some.injEq] at hrun
    rw [← hrun]
    simp only [stops, List.count_nil]
    omega
  | cons st rest ih =>
    simp only [coordRun] at hrun
    cases hs : coordStep st c0 with
    | none =>
      rw [hs] at hrun
      exact Option.noConfusion hrun
    | some c1 =>
      rw [hs] at hrun
      have h1 := ih c1 hrun
      cases st with
      | startFetch =>
        simp only [coordStep, Option.some.injEq] at hs
        rw [← hs] at h1
        simp only [stops, List.count_cons] at h1 ⊢
        simp at h1 ⊢
        omega
      | endFetch =>
        simp only [coordStep] at hs
        split at hs
        · exact Option.noConfusion hs
        · rename_i hne
          simp only [Option.some.injEq] at hs
          rw [← hs] at h1
          simp only [stops, List.count_cons] at h1 ⊢
          simp at h1 ⊢
          omega
      | stopServer =>
        simp only [coordStep] at hs
        split at hs
        · exact Option.noConfusion hs
        · rename_i hne
          simp only [Option.some.injEq] at hs
          rw [← hs] at h1
          simp only [stops, List.count_cons] at h1 ⊢
          simp at h1 ⊢
          omega
      | cleanup =>
        simp only [coordStep] at hs
        split at hs
        · simp only [Option.some.injEq] at hs
          rw [← hs] at h1
          simp only [stops, List.count_cons] at h1 ⊢
          simp at h1 ⊢
          omega
        · exact Option.noConfusion hs

/-- As long as `StopServer` has run at most once, the goroutine of `main` can
remove the storage directory only when no fetch is in flight. -/
theorem cleanup_waits_single_stop (steps : List CoordStep) (c c' : Coord)
    (hrun : coordRun steps initCoord = some c) (hstop : stops steps ≤ 1)
    (hclean : coordStep CoordStep.cleanup c = some c') : c.inflight = 0 := by
  have hb := coordRun_balance steps initCoord c hrun
  simp only [initCoord] at hb
  simp only [coordStep] at hclean
  split at hclean
  · rename_i hz
    omega
  · exact Option.noConfusion hclean

/-- C8, on the code: with one fetch in flight, two calls of `StopServer` bring
the counter to zero, the cleanup step is then enabled and removes the storage
directory while the fetch has not released its work; and a fetch that
registers after the cleanup is in flight with the directory removed. -/
theorem cleanup_during_fetch :
    coordRun [CoordStep.startFetch, CoordStep.stopServer, CoordStep.stopServer] initCoord =
      some { count := 0, inflight := 1, cleaned := false } ∧
    coordStep CoordStep.cleanup { count := 0, inflight := 1, cleaned := false } =
      some { count := 0, inflight := 1, cleaned := true } ∧
    coordRun [CoordStep.stopServer, CoordStep.cleanup, CoordStep.startFetch] initCoord =
      some { count := 1, inflight := 1, cleaned := true } := by
  decide

/-! ## Interleaved calls of `NewTask` -/

/-- C10, on the code: four calls of `NewTask` on the initial registry that all
pass the test of line 140 and read the counter on line 145 before any of them
takes the mutex all return success; the registry then holds four tasks, all
with the `Number` "1". -/
theorem NewTask_interleaved_breaks :
    sharedRun [0, 1, 2, 3, 0, 1, 2, 3, 0, 1, 2, 3] (initShared 4) =
      some
        { Tasks :=
            [{ Objects := [], ZipName := "", Number := "1" },
             { Objects := [], ZipName := "", Number := "1" },
             { Objects := [], ZipName := "", Number := "1" },
             { Objects := [], ZipName := "", Number := "1" }],
          NextTask := 5,
          calls := [Pc.returned Result.ok, Pc.returned Result.ok, Pc.returned Result.ok,
            Pc.returned Result.ok] } := by
  decide

/-- Calls of `NewTask` that run one after the other, each through its three
steps, keep the bound: the fourth call returns the capacity error. -/
theorem NewTask_serial_keeps_bound :
    sharedRun [0, 0, 0, 1, 1, 1, 2, 2, 2, 3] (initShared 4) =
      some
        { Tasks :=
            [{ Objects := [], ZipName := "", Number := "1" },
             { Objects := [], ZipName := "", Number := "2" },
             { Objects := [], ZipName := "", Number := "3" }],
          NextTask := 4,
          calls := [Pc.returned Result.ok, Pc.returned Result.ok, Pc.returned Result.ok,
            Pc.returned (Result.err errTooManyTasks)] } := by
  decide

end Server
